import Mathlib

/-!
Verification development for the snippet discovery / extraction / scoring /
caching pipeline of the CodeReviewApp repository.

The TypeScript sources `src/lib/github.ts`, `src/lib/rateLimit.ts` and the
cache-queue logic of `src/app/page.tsx` are shallowly embedded below:

* JavaScript regular-expression `test` calls are embedded through a small
  derivative-based regex engine (`RE`, `reTest`, ...); each regex literal of
  the source is transcribed as an `RE` value whose structure mirrors the
  regex text.
* JavaScript numbers are embedded as `Int` (scores, rate-limit fields) or
  `Nat` (indices, counts); strings as `String`.
* The asynchronous, exception-throwing GitHub calls are embedded in a small
  monad `M` over an oracle environment `Env`: each remote call reads the
  next response (a value or a thrown error) from the environment, and the
  monad records a trace of the remote calls that were issued.  `try/catch`
  is embedded as `tryCatchM`.
-/

namespace CodeReviewApp

/-! ## A small regex engine (Brzozowski derivatives)

JavaScript `regex.test(s)` returns true iff the regex matches some substring
of `s` (for `^`-anchored alternatives: some prefix starting at position 0).
`nullable`/`deriv` are the standard derivative operations; `matchesFrom r s`
decides whether some prefix of `s` matches `r`, and `reSearch` whether some
substring does. -/

inductive RE where
  | emp : RE
  | eps : RE
  | cls : (Char → Bool) → RE
  | seq : RE → RE → RE
  | alt : RE → RE → RE
  | star : RE → RE

def RE.nullable : RE → Bool
  | .emp => false
  | .eps => true
  | .cls _ => false
  | .seq a b => a.nullable && b.nullable
  | .alt a b => a.nullable || b.nullable
  | .star _ => true

/-- Language-preserving sequencing that collapses the empty language, so
that a failed match reduces to `emp` and can be detected early. -/
def RE.mkSeq : RE → RE → RE
  | .emp, _ => .emp
  | a, b => .seq a b

/-- Language-preserving alternation that drops empty-language branches. -/
def RE.mkAlt : RE → RE → RE
  | .emp, b => b
  | a, .emp => a
  | a, b => .alt a b

def RE.deriv : RE → Char → RE
  | .emp, _ => .emp
  | .eps, _ => .emp
  | .cls p, c => if p c then .eps else .emp
  | .seq a b, c =>
    if a.nullable then .mkAlt (.mkSeq (a.deriv c) b) (b.deriv c)
    else .mkSeq (a.deriv c) b
  | .alt a b, c => .mkAlt (a.deriv c) (b.deriv c)
  | .star a, c => .mkSeq (a.deriv c) (.star a)

/-- Does some prefix of `s` match `r`? -/
def RE.matchesFrom (r : RE) : List Char → Bool
  | [] => r.nullable
  | c :: cs =>
    r.nullable ||
      (match r.deriv c with
       | .emp => false
       | r' => r'.matchesFrom cs)

/-- Does some substring of `s` match `r`?  (JS `regex.test` for unanchored
regexes.) -/
def RE.search (r : RE) : List Char → Bool
  | [] => r.matchesFrom []
  | c :: cs => r.matchesFrom (c :: cs) || r.search cs

/-- JS `\s` (ASCII fragment). -/
def isSpaceJS (c : Char) : Bool :=
  c == ' ' || c == '\t' || c == '\n' || c == '\r' || c == '\x0b' || c == '\x0c'

/-- JS `\w`: ASCII letters, digits, underscore. -/
def isWordJS (c : Char) : Bool := c.isAlphanum || c == '_'

/-- JS `s.trim()` (ASCII whitespace fragment). -/
def trimJS (s : String) : String :=
  String.mk (((s.data.dropWhile isSpaceJS).reverse.dropWhile isSpaceJS).reverse)

/-- JS `s.split('\n')`. -/
def splitLinesAux : List Char → List Char → List String
  | [], acc => [String.mk acc.reverse]
  | c :: cs, acc =>
    if c == '\n' then String.mk acc.reverse :: splitLinesAux cs []
    else splitLinesAux cs (c :: acc)

def splitLinesJS (s : String) : List String := splitLinesAux s.data []

/-- `lines.join('\n')` / `String.intercalate "\n"`. -/
def joinLinesCh : List String → List Char
  | [] => []
  | [s] => s.data
  | s :: rest => s.data ++ '\n' :: joinLinesCh rest

def joinLinesJS (l : List String) : String := String.mk (joinLinesCh l)

/-- JS `s.includes(c)` for a single character. -/
def containsJS (s : String) (c : Char) : Bool := s.data.any (fun d => d == c)

/-- JS `s.length` (code-unit count; character count on the ASCII fragment). -/
def strLen (s : String) : Nat := s.data.length

/-- ASCII lowercasing of one character (JS `toLowerCase` fragment). -/
def toLowerCharJS (c : Char) : Char :=
  if c == 'A' then 'a' else if c == 'B' then 'b' else if c == 'C' then 'c'
  else if c == 'D' then 'd' else if c == 'E' then 'e' else if c == 'F' then 'f'
  else if c == 'G' then 'g' else if c == 'H' then 'h' else if c == 'I' then 'i'
  else if c == 'J' then 'j' else if c == 'K' then 'k' else if c == 'L' then 'l'
  else if c == 'M' then 'm' else if c == 'N' then 'n' else if c == 'O' then 'o'
  else if c == 'P' then 'p' else if c == 'Q' then 'q' else if c == 'R' then 'r'
  else if c == 'S' then 's' else if c == 'T' then 't' else if c == 'U' then 'u'
  else if c == 'V' then 'v' else if c == 'W' then 'w' else if c == 'X' then 'x'
  else if c == 'Y' then 'y' else if c == 'Z' then 'z' else c

/-- JS `s.toLowerCase()` (ASCII fragment). -/
def toLowerJS (s : String) : String := String.mk (s.data.map toLowerCharJS)

/-- JS `s.startsWith(pre)`. -/
def isPrefixOfJS : List Char → List Char → Bool
  | [], _ => true
  | _ :: _, [] => false
  | c :: cs, d :: ds => c == d && isPrefixOfJS cs ds

def startsWithJS (s pre : String) : Bool := isPrefixOfJS pre.data s.data

/-- JS `s.endsWith(suf)`. -/
def endsWithJS (s suf : String) : Bool := isPrefixOfJS suf.data.reverse s.data.reverse

/-- JS `regex.test(s)` for an unanchored regex. -/
def reTest (r : RE) (s : String) : Bool := r.search s.data

/-- JS `regex.test(s)` for a regex with the `i` flag: embedded by lowercasing
the subject and writing the pattern in lowercase. -/
def reTestCI (r : RE) (s : String) : Bool := r.search (toLowerJS s).data

/-- JS `regex.test(s)` for a regex all of whose alternatives are
`^`-anchored: only a match at position 0 counts. -/
def reTestAnchored (r : RE) (s : String) : Bool := r.matchesFrom s.data

/-- Concatenation of a list of regexes. -/
def rcat (l : List RE) : RE := l.foldr RE.seq RE.eps

/-- Alternation of a list of regexes. -/
def ralt (l : List RE) : RE := l.foldr RE.alt RE.emp

/-- A single literal character. -/
def chr (c : Char) : RE := RE.cls (fun d => d == c)

/-- A literal string. -/
def rstr (s : String) : RE := rcat (s.data.map chr)

/-- `r?` -/
def ropt (r : RE) : RE := RE.alt RE.eps r

/-- `r` repeated exactly `k` times. -/
def rrep (r : RE) (k : Nat) : RE := rcat (List.replicate k r)

/-- `r{k,}` -/
def ratleast (r : RE) (k : Nat) : RE := RE.seq (rrep r k) (RE.star r)

/-- Opening and closing brace characters. -/
def obrace : Char := '\x7b'
def cbrace : Char := '\x7d'

/-- `\s*` -/
def wss : RE := RE.star (RE.cls isSpaceJS)
/-- `\s+` -/
def ws1 : RE := RE.seq (RE.cls isSpaceJS) wss
/-- `\w+` -/
def wplus : RE := RE.seq (RE.cls isWordJS) (RE.star (RE.cls isWordJS))
/-- `[\s\S]*` -/
def anychar : RE := RE.star (RE.cls (fun _ => true))
/-- JS `.` (no `s` flag): any char except line terminators. -/
def dotc : RE := RE.cls (fun c => !(c == '\n' || c == '\r'))
/-- `[^x]*` -/
def notCh (c : Char) : RE := RE.star (RE.cls (fun d => !(d == c)))

/-! ## The regex literals of `src/lib/github.ts`, transcribed -/

/-- `/if\s*\(|else\s*if|switch\s*\(|case\s+|catch\s*\(|while\s*\(|for\s*\(|&&|\|\|/`
(decision points, `analyzeCodeComplexity`). -/
def decisionRE : RE := ralt
  [ rcat [rstr "if", wss, chr '(']
  , rcat [rstr "else", wss, rstr "if"]
  , rcat [rstr "switch", wss, chr '(']
  , rcat [rstr "case", ws1]
  , rcat [rstr "catch", wss, chr '(']
  , rcat [rstr "while", wss, chr '(']
  , rcat [rstr "for", wss, chr '(']
  , rstr "&&"
  , rstr "||" ]

/-- `/\([^)]{50,}\)/` (long parameter list, `analyzeCodeComplexity`). -/
def longParamRE : RE :=
  rcat [chr '(', ratleast (RE.cls (fun d => !(d == ')'))) 50, chr ')']

/-- `/if\s*\([^)]*\)\s*\{[^}]*if\s*\([^)]*\)\s*\{[^}]*if\s*\(/` (deep nesting). -/
def deepNestRE : RE :=
  rcat [ rstr "if", wss, chr '(', notCh ')', chr ')', wss, chr obrace
       , notCh cbrace, rstr "if", wss, chr '(', notCh ')', chr ')', wss, chr obrace
       , notCh cbrace, rstr "if", wss, chr '(' ]

/-- `/console\.(log|warn|error)/` -/
def consoleRE : RE :=
  rcat [rstr "console.", ralt [rstr "log", rstr "warn", rstr "error"]]

/-- `/TODO|FIXME|HACK|XXX/i` (pattern lowercased, subject lowercased). -/
def todoRE : RE := ralt [rstr "todo", rstr "fixme", rstr "hack", rstr "xxx"]

/-- `/catch\s*\([^)]*\)\s*\{\s*\}/` (empty catch block). -/
def emptyCatchRE : RE :=
  rcat [rstr "catch", wss, chr '(', notCh ')', chr ')', wss, chr obrace, wss, chr cbrace]

/-- `/var\s+\w+/` -/
def varDeclRE : RE := rcat [rstr "var", ws1, wplus]

/-- `/==\s*[^=]|!=\s*[^=]/` (loose equality). -/
def looseEqRE : RE := ralt
  [ rcat [rstr "==", wss, RE.cls (fun d => !(d == '='))]
  , rcat [rstr "!=", wss, RE.cls (fun d => !(d == '='))] ]

/-- `/eval\s*\(|new Function/` -/
def evalUseRE : RE := ralt [rcat [rstr "eval", wss, chr '('], rstr "new Function"]

/-- `/\.innerHTML\s*=/` -/
def innerHTMLRE : RE := rcat [rstr ".innerHTML", wss, chr '=']

/-- `/async\s+function|await\s+/` -/
def asyncAwaitRE : RE := ralt [rcat [rstr "async", ws1, rstr "function"], rcat [rstr "await", ws1]]

/-- `/Promise\.(all|race|allSettled)/` -/
def promisePatRE : RE :=
  rcat [rstr "Promise.", ralt [rstr "all", rstr "race", rstr "allSettled"]]

/-- `/useState|useEffect|useCallback|useMemo/` -/
def reactHooksRE : RE :=
  ralt [rstr "useState", rstr "useEffect", rstr "useCallback", rstr "useMemo"]

/-- `/\.map\s*\(|\.filter\s*\(|\.reduce\s*\(/` -/
def funcProgRE : RE := ralt
  [ rcat [rstr ".map", wss, chr '(']
  , rcat [rstr ".filter", wss, chr '(']
  , rcat [rstr ".reduce", wss, chr '('] ]

/-- `/try\s*\{|catch\s*\(|finally\s*\{/` -/
def errHandlingRE : RE := ralt
  [ rcat [rstr "try", wss, chr obrace]
  , rcat [rstr "catch", wss, chr '(']
  , rcat [rstr "finally", wss, chr obrace] ]

/-- `/class\s+\w+|interface\s+\w+|type\s+\w+/` -/
def typeDefsRE : RE := ralt
  [ rcat [rstr "class", ws1, wplus]
  , rcat [rstr "interface", ws1, wplus]
  , rcat [rstr "type", ws1, wplus] ]

/-- `/@\w+|decorator/` -/
def decoratorsRE : RE := ralt [rcat [chr '@', wplus], rstr "decorator"]

/-- `/\.test\s*\(|\.match\s*\(|regex/` -/
def regexPatRE : RE := ralt
  [ rcat [rstr ".test", wss, chr '(']
  , rcat [rstr ".match", wss, chr '(']
  , rstr "regex" ]

/-- `/recursive|recursion/i` -/
def recursivePatRE : RE := ralt [rstr "recursive", rstr "recursion"]

/-- `/algorithm|sort|search|binary|tree|graph/i` -/
def algoRE : RE :=
  ralt [rstr "algorithm", rstr "sort", rstr "search", rstr "binary", rstr "tree", rstr "graph"]

/-- `/password|secret|api[_-]?key|token/i` -/
def credsRE : RE := ralt
  [ rstr "password", rstr "secret"
  , rcat [rstr "api", ropt (RE.cls (fun d => d == '_' || d == '-')), rstr "key"]
  , rstr "token" ]

/-- `/process\.env|config/` -/
def envConfigRE : RE := ralt [rstr "process.env", rstr "config"]

/-- `/SQL|SELECT|INSERT|DELETE|UPDATE/i` (lowercased). -/
def sqlKwRE : RE :=
  ralt [rstr "sql", rstr "select", rstr "insert", rstr "delete", rstr "update"]

/-- `/\$\{|\+.*\+/` -/
def sqlInterpRE : RE :=
  ralt [rcat [chr '$', chr obrace], rcat [chr '+', RE.star dotc, chr '+']]

/-- `/setTimeout|setInterval/` -/
def timersRE : RE := ralt [rstr "setTimeout", rstr "setInterval"]

/-- `/clearTimeout|clearInterval/` -/
def clearsRE : RE := ralt [rstr "clearTimeout", rstr "clearInterval"]

/-- `/\.forEach\s*\([^)]*async/` -/
def forEachAsyncRE : RE := rcat [rstr ".forEach", wss, chr '(', notCh ')', rstr "async"]

/-- `/\.map\s*\([^)]*async/` -/
def mapAsyncRE : RE := rcat [rstr ".map", wss, chr '(', notCh ')', rstr "async"]

/-- `/Promise\.all/` -/
def promiseAllRE : RE := rstr "Promise.all"

/-- `/design pattern|factory|singleton|observer|strategy/i` -/
def designPatRE : RE :=
  ralt [rstr "design pattern", rstr "factory", rstr "singleton", rstr "observer", rstr "strategy"]

/-- `/optimization|performance|memoization|caching/i` -/
def perfPatRE : RE :=
  ralt [rstr "optimization", rstr "performance", rstr "memoization", rstr "caching"]

/-- `/security|authentication|authorization|encryption/i` -/
def secPatRE : RE :=
  ralt [rstr "security", rstr "authentication", rstr "authorization", rstr "encryption"]

/-- `/test|spec|describe|it\(|expect/` -/
def testPatRE : RE :=
  ralt [rstr "test", rstr "spec", rstr "describe", rstr "it(", rstr "expect"]

/-- `/\/\*\*[\s\S]*?\*\//` (block-comment documentation; laziness is
irrelevant for a match-existence test). -/
def docCommentRE : RE := rcat [rstr "/**", anychar, rstr "*/"]

/-- `/try|catch|throw|error|exception/i` (fallback block scoring in
`getRandomCodeSnippet`). -/
def fallbackErrRE : RE :=
  ralt [rstr "try", rstr "catch", rstr "throw", rstr "error", rstr "exception"]

/-! Language-specific declaration patterns of `findInterestingSections`
(all alternatives are `^`-anchored, so they are tested with
`reTestAnchored`). -/

def cLetVar : RE := ralt [rstr "const", rstr "let", rstr "var"]
def expOpt : RE := ropt (rcat [rstr "export", ws1])
def asyncOpt : RE := ropt (rcat [rstr "async", ws1])

/-- `javascript.function`:
`/^(export\s+)?(async\s+)?function\s+\w+|^(export\s+)?(const|let|var)\s+\w+\s*=\s*(async\s+)?\(|^(export\s+)?(const|let|var)\s+\w+\s*=\s*(async\s+)?\(/`
(the second and third alternatives of the source regex are identical). -/
def jsFuncRE : RE := ralt
  [ rcat [expOpt, asyncOpt, rstr "function", ws1, wplus]
  , rcat [expOpt, cLetVar, ws1, wplus, wss, chr '=', wss, asyncOpt, chr '(']
  , rcat [expOpt, cLetVar, ws1, wplus, wss, chr '=', wss, asyncOpt, chr '('] ]

/-- `javascript.class`: `/^(export\s+)?class\s+\w+/` -/
def jsClassRE : RE := rcat [expOpt, rstr "class", ws1, wplus]

/-- `typescript.function` (like `javascript.function` with `[:=]`). -/
def tsFuncRE : RE := ralt
  [ rcat [expOpt, asyncOpt, rstr "function", ws1, wplus]
  , rcat [expOpt, cLetVar, ws1, wplus, wss, RE.cls (fun d => d == ':' || d == '='), wss, asyncOpt, chr '(']
  , rcat [expOpt, cLetVar, ws1, wplus, wss, RE.cls (fun d => d == ':' || d == '='), wss, asyncOpt, chr '('] ]

/-- `typescript.class`: `/^(export\s+)?(abstract\s+)?class\s+\w+/` -/
def tsClassRE : RE :=
  rcat [expOpt, ropt (rcat [rstr "abstract", ws1]), rstr "class", ws1, wplus]

/-- `python.function`: `/^def\s+\w+|^async\s+def\s+\w+/` -/
def pyFuncRE : RE := ralt
  [ rcat [rstr "def", ws1, wplus]
  , rcat [rstr "async", ws1, rstr "def", ws1, wplus] ]

/-- `python.class`: `/^class\s+\w+/` -/
def pyClassRE : RE := rcat [rstr "class", ws1, wplus]

/-- `java.function`: `/^\s*(public|private|protected)?\s*(static\s+)?\w+\s+\w+\s*\(/` -/
def javaFuncRE : RE :=
  rcat [ wss, ropt (ralt [rstr "public", rstr "private", rstr "protected"]), wss
       , ropt (rcat [rstr "static", ws1]), wplus, ws1, wplus, wss, chr '(' ]

/-- `java.class`: `/^(public\s+)?(abstract\s+)?class\s+\w+/` -/
def javaClassRE : RE :=
  rcat [ ropt (rcat [rstr "public", ws1]), ropt (rcat [rstr "abstract", ws1])
       , rstr "class", ws1, wplus ]

/-- `go.function`: `/^func\s+(\w+\s+)?\w+\s*\(/` -/
def goFuncRE : RE :=
  rcat [rstr "func", ws1, ropt (rcat [wplus, ws1]), wplus, wss, chr '(']

/-- `go.class`: `/^type\s+\w+\s+(struct|interface)/` -/
def goClassRE : RE :=
  rcat [rstr "type", ws1, wplus, ws1, ralt [rstr "struct", rstr "interface"]]

/-- `rust.function`: `/^(pub\s+)?(async\s+)?fn\s+\w+/` -/
def rustFuncRE : RE :=
  rcat [ropt (rcat [rstr "pub", ws1]), asyncOpt, rstr "fn", ws1, wplus]

/-- `rust.class`: `/^(pub\s+)?(struct|enum|impl)\s+\w+/` -/
def rustClassRE : RE :=
  rcat [ ropt (rcat [rstr "pub", ws1]), ralt [rstr "struct", rstr "enum", rstr "impl"]
       , ws1, wplus ]

/-- `patterns[language] || patterns.javascript` (function pattern). -/
def funcPatternOf (language : String) : RE :=
  if language = "javascript" then jsFuncRE
  else if language = "typescript" then tsFuncRE
  else if language = "python" then pyFuncRE
  else if language = "java" then javaFuncRE
  else if language = "go" then goFuncRE
  else if language = "rust" then rustFuncRE
  else jsFuncRE

/-- `patterns[language] || patterns.javascript` (class pattern). -/
def classPatternOf (language : String) : RE :=
  if language = "javascript" then jsClassRE
  else if language = "typescript" then tsClassRE
  else if language = "python" then pyClassRE
  else if language = "java" then javaClassRE
  else if language = "go" then goClassRE
  else if language = "rust" then rustClassRE
  else jsClassRE

/-! ## Counting `/\b\d{2,}\b/g` matches

`trimmed.match(/\b\d{2,}\b/g)` returns one match per maximal run of digits
that is delimited by non-word characters (or the ends of the string) on both
sides and has length at least 2: a run adjacent to a word character on
either side admits no `\b` placement (every split inside a digit run sits
between two word characters), so it yields no match. -/

/-- Scan the characters.  `cur = some k` means we are inside a digit run of
length `k` so far whose left neighbour was a non-word character (a candidate
match); `cur = none` otherwise.  `prevWord` says whether the previous
character was a word character. -/
def countMagicAux : List Char → Option Nat → Bool → Nat
  | [], cur, _ =>
    match cur with
    | some k => if 2 ≤ k then 1 else 0
    | none => 0
  | c :: cs, cur, prevWord =>
    if c.isDigit then
      match cur with
      | some k => countMagicAux cs (some (k + 1)) true
      | none =>
        if prevWord then countMagicAux cs none true
        else countMagicAux cs (some 1) true
    else
      let add : Nat :=
        match cur with
        | some k => if 2 ≤ k && !isWordJS c then 1 else 0
        | none => 0
      add + countMagicAux cs none (isWordJS c)

/-- Number of matches of `/\b\d{2,}\b/g` in `s`. -/
def countMagicNumbers (s : String) : Nat := countMagicAux s.data none false

/-! ## JS string primitives

The embedding uses its own structurally recursive string operations (over
`String.data`) so that every definition evaluates by kernel reduction on
concrete inputs.  They model the corresponding JS operations on the ASCII
fragment the pipeline manipulates. -/

/-- JS `s.includes(sub)`. -/
def strIncludes (s sub : String) : Bool := reTest (rstr sub) s

/-- A stable insertion sort, descending by an `Int` key: the embedding of
JS `Array.prototype.sort` (a stable sort) with comparator
`(a, b) => key(b) - key(a)`. -/
def insertByDesc (key : α → Int) (x : α) : List α → List α
  | [] => [x]
  | y :: ys => if key y < key x then x :: y :: ys else y :: insertByDesc key x ys

def sortByDesc (key : α → Int) (l : List α) : List α :=
  l.foldl (fun acc x => insertByDesc key x acc) []

/-! ## `analyzeCodeComplexity` (src/lib/github.ts lines 367-420) -/

/-- JS `l.slice(a, b)` for non-negative bounds. -/
def sliceJS (l : List α) (a b : Nat) : List α := (l.drop a).take (b - a)

structure ComplexityInfo where
  cyclomaticComplexity : Nat
  nestingDepth : Nat
  lineLengthIssues : Nat
  magicNumbers : Nat
  longParameterList : Bool
deriving Repr, DecidableEq

/-- Loop state of `analyzeCodeComplexity` (the running nesting counter is
local to the loop and not part of the result). -/
structure CAState where
  cc : Nat
  maxNest : Nat
  curNest : Nat
  lli : Nat
  magic : Nat
  lpl : Bool

/-- One iteration of the `for (const line of section)` loop.
`Math.max(0, currentNesting - 1)` coincides with truncated `Nat`
subtraction. -/
def analyzeStep (st : CAState) (line : String) : CAState :=
  let trimmed := trimJS line
  let st := if reTest decisionRE trimmed then { st with cc := st.cc + 1 } else st
  let st :=
    if containsJS trimmed obrace || containsJS trimmed '(' then
      { st with curNest := st.curNest + 1, maxNest := max st.maxNest (st.curNest + 1) }
    else st
  let st :=
    if containsJS trimmed cbrace || containsJS trimmed ')' then
      { st with curNest := st.curNest - 1 }
    else st
  let st := if 100 < strLen line then { st with lli := st.lli + 1 } else st
  let st := { st with magic := st.magic + countMagicNumbers trimmed }
  let st := if reTest longParamRE trimmed then { st with lpl := true } else st
  st

def analyzeCodeComplexity (lines : List String) (start endL : Nat) : ComplexityInfo :=
  let sectionLines := sliceJS lines (start - 1) endL
  let st := sectionLines.foldl analyzeStep
    { cc := 1, maxNest := 0, curNest := 0, lli := 0, magic := 0, lpl := false }
  { cyclomaticComplexity := st.cc
  , nestingDepth := st.maxNest
  , lineLengthIssues := st.lli
  , magicNumbers := st.magic
  , longParameterList := st.lpl }

/-! ## `detectCodePatterns` (src/lib/github.ts lines 423-490) -/

structure PatternInfo where
  codeSmells : List String
  interestingPatterns : List String
  potentialIssues : List String
  educationalValue : List String
deriving Repr, DecidableEq

/-- The code-smell pushes of `detectCodePatterns`, in source order. -/
def detectSmells (sectionLen : Nat) (fullText : String) : List String :=
  (if 50 < sectionLen then ["Long method/function"] else []) ++
  (if reTest deepNestRE fullText then ["Deep nesting"] else []) ++
  (if reTest consoleRE fullText then ["Console statements"] else []) ++
  (if reTestCI todoRE fullText then ["TODO/FIXME comments"] else []) ++
  (if reTest emptyCatchRE fullText then ["Empty catch block"] else []) ++
  (if reTest varDeclRE fullText then ["Use of var (consider let/const)"] else []) ++
  (if reTest looseEqRE fullText then ["Loose equality (==)"] else []) ++
  (if reTest evalUseRE fullText then ["Use of eval"] else [])

/-- The interesting-pattern pushes of `detectCodePatterns`, in source order. -/
def detectInteresting (fullText : String) : List String :=
  (if reTest asyncAwaitRE fullText then ["Async/await pattern"] else []) ++
  (if reTest promisePatRE fullText then ["Promise patterns"] else []) ++
  (if reTest reactHooksRE fullText then ["React hooks"] else []) ++
  (if reTest funcProgRE fullText then ["Functional programming"] else []) ++
  (if reTest errHandlingRE fullText then ["Error handling"] else []) ++
  (if reTest typeDefsRE fullText then ["Type definitions"] else []) ++
  (if reTest decoratorsRE fullText then ["Decorators"] else []) ++
  (if reTest regexPatRE fullText then ["Regex patterns"] else []) ++
  (if reTestCI recursivePatRE fullText then ["Recursive algorithm"] else [])

/-- The potential-issue pushes of `detectCodePatterns`, in source order (the
innerHTML check, written among the code smells in the source, pushes into
`potentialIssues` first). -/
def detectIssues (fullText : String) : List String :=
  (if reTest innerHTMLRE fullText then ["Potential XSS (innerHTML)"] else []) ++
  (if reTestCI credsRE fullText && !reTest envConfigRE fullText then
    ["Possible hardcoded credentials"] else []) ++
  (if reTestCI sqlKwRE fullText && reTest sqlInterpRE fullText then
    ["Possible SQL injection risk"] else []) ++
  (if reTest timersRE fullText && !reTest clearsRE fullText then
    ["Possible memory leak (missing cleanup)"] else []) ++
  (if reTest forEachAsyncRE fullText then
    ["Async in forEach (may not work as expected)"] else []) ++
  (if reTest mapAsyncRE fullText && !reTest promiseAllRE fullText then
    ["Async map without Promise.all"] else [])

/-- The educational-value pushes of `detectCodePatterns`, in source order. -/
def detectEducational (fullText : String) : List String :=
  (if reTestCI algoRE fullText then ["Algorithm implementation"] else []) ++
  (if reTestCI designPatRE fullText then ["Design pattern"] else []) ++
  (if reTestCI perfPatRE fullText then ["Performance optimization"] else []) ++
  (if reTestCI secPatRE fullText then ["Security implementation"] else []) ++
  (if reTest testPatRE fullText then ["Test code"] else []) ++
  (if reTest docCommentRE fullText then ["Well-documented code"] else [])

/-- Each `push` of the source appends one label; the four buckets are
independent and each is built in source order. -/
def detectCodePatterns (lines : List String) (start endL : Nat) (_language : String) :
    PatternInfo :=
  let sectionLines := sliceJS lines (start - 1) endL
  let fullText := joinLinesJS sectionLines
  { codeSmells := detectSmells sectionLines.length fullText
  , interestingPatterns := detectInteresting fullText
  , potentialIssues := detectIssues fullText
  , educationalValue := detectEducational fullText }

/-! ## `scoreCodeSection` (src/lib/github.ts lines 493-577) -/

/-- The input shape `{ start, end, type }` (the `end` field is named `endL`
here because `end` is a Lean keyword). -/
structure SectionSpan where
  start : Nat
  endL : Nat
  type : String
deriving Repr, DecidableEq

structure Metrics where
  complexity : Nat
  codeSmells : Nat
  interestingPatterns : Nat
  educationalValue : Nat
  potentialIssues : Nat
deriving Repr, DecidableEq

structure CodeSection where
  start : Nat
  endL : Nat
  type : String
  score : Int
  metrics : Metrics
  reasons : List String
deriving Repr, DecidableEq

/-- The sequential `score += ...` accumulation of `scoreCodeSection`,
written as the sum it computes, in source order.  (Each `+=` is guarded by
a side-effect-free condition, so accumulating the score and the reasons
separately is the same computation.)  A JS negative `length = end - start`
satisfies none of the band conditions, exactly like truncated Nat
subtraction. -/
def scoreOfSection (sec : SectionSpan) (complexity : ComplexityInfo)
    (patterns : PatternInfo) : Int :=
  let cc := complexity.cyclomaticComplexity
  let len := sec.endL - sec.start
  (if 5 ≤ cc ∧ cc ≤ 15 then (15 : Int) else if 15 < cc then 20 else 0)
    + (if 3 ≤ complexity.nestingDepth then 10 else 0)
    + (if 0 < patterns.codeSmells.length then (patterns.codeSmells.length * 5 : Int) else 0)
    + patterns.interestingPatterns.length * 8
    + patterns.potentialIssues.length * 15
    + patterns.educationalValue.length * 10
    + (if 15 ≤ len ∧ len ≤ 30 then (5 : Int)
       else if 30 < len ∧ len ≤ 35 then 2
       else if 35 < len then -15 else 0)
    + (if 0 < complexity.magicNumbers then 5 else 0)
    + (if complexity.longParameterList then 5 else 0)

/-- The `reasons.push(...)` accumulation of `scoreCodeSection`, in source
order (the length band contributes no reason). -/
def reasonsOfSection (complexity : ComplexityInfo) (patterns : PatternInfo) :
    List String :=
  let cc := complexity.cyclomaticComplexity
  let nd := complexity.nestingDepth
  let mn := complexity.magicNumbers
  (if 5 ≤ cc ∧ cc ≤ 15 then [s!"Moderate complexity ({cc})"]
   else if 15 < cc then [s!"High complexity ({cc}) - review needed"] else []) ++
  (if 3 ≤ nd then [s!"Deep nesting ({nd} levels)"] else []) ++
  (if 0 < patterns.codeSmells.length then
    ["Code smells: " ++ String.intercalate ", " patterns.codeSmells] else []) ++
  (if 0 < patterns.interestingPatterns.length then
    ["Patterns: " ++ String.intercalate ", " (patterns.interestingPatterns.take 3)] else []) ++
  (if 0 < patterns.potentialIssues.length then
    ["⚠️ Issues: " ++ String.intercalate ", " patterns.potentialIssues] else []) ++
  (if 0 < patterns.educationalValue.length then
    ["📚 Educational: " ++ String.intercalate ", " patterns.educationalValue] else []) ++
  (if 0 < mn then [s!"{mn} magic number(s)"] else []) ++
  (if complexity.longParameterList then ["Long parameter list"] else [])

def scoreCodeSection (sec : SectionSpan) (lines : List String) (language : String) :
    CodeSection :=
  let complexity := analyzeCodeComplexity lines sec.start sec.endL
  let patterns := detectCodePatterns lines sec.start sec.endL language
  { start := sec.start
  , endL := sec.endL
  , type := sec.type
  , score := scoreOfSection sec complexity patterns
  , metrics :=
    { complexity := complexity.cyclomaticComplexity
    , codeSmells := patterns.codeSmells.length
    , interestingPatterns := patterns.interestingPatterns.length
    , educationalValue := patterns.educationalValue.length
    , potentialIssues := patterns.potentialIssues.length }
  , reasons := reasonsOfSection complexity patterns }

/-! ## `findInterestingSections` (src/lib/github.ts lines 580-686) -/

structure ExtractState where
  sections : List SectionSpan
  current : Option SectionSpan
  braceCount : Int
  parenCount : Int

/-- The `for (const char of line)` brace/paren counting. -/
def updateCounts (line : String) (b p : Int) : Int × Int :=
  line.data.foldl (fun bp ch =>
    let b := bp.1
    let p := bp.2
    let b := if ch == obrace then b + 1 else b
    let b := if ch == cbrace then b - 1 else b
    let p := if ch == '(' then p + 1 else p
    let p := if ch == ')' then p - 1 else p
    (b, p)) (b, p)

/-- The trim-and-bound step applied when a section closes and to the final
trailing section (lines 653-663 and 668-677). -/
def trimToMax (cs : SectionSpan) (maxLines : Nat) : Option SectionSpan :=
  let sectionLength := cs.endL - cs.start
  let cs := if maxLines < sectionLength then { cs with endL := cs.start + maxLines - 1 } else cs
  if cs.endL - cs.start ≤ maxLines then some cs else none

/-- One iteration of the line loop of `findInterestingSections`. -/
def extractStep (funcRE classRE : RE) (minLines maxLines : Nat)
    (st : ExtractState) (iLine : Nat × String) : ExtractState :=
  let i := iLine.1
  let line := iLine.2
  let trimmed := trimJS line
  let st :=
    if reTestAnchored funcRE trimmed || reTestAnchored classRE trimmed then
      let sections :=
        match st.current with
        | some cs => if minLines ≤ cs.endL - cs.start then st.sections ++ [cs] else st.sections
        | none => st.sections
      let ty := if reTestAnchored classRE trimmed then "class" else "function"
      { sections := sections
      , current := some { start := i + 1, endL := i + 1, type := ty }
      , braceCount := 0, parenCount := 0 }
    else st
  match st.current with
  | none => st
  | some cs =>
    let bp := updateCounts line st.braceCount st.parenCount
    let cs := { cs with endL := i + 1 }
    if bp.1 == 0 && bp.2 == 0 && minLines ≤ cs.endL - cs.start then
      match trimToMax cs maxLines with
      | some cs2 =>
        { sections := st.sections ++ [cs2], current := none
        , braceCount := bp.1, parenCount := bp.2 }
      | none =>
        { sections := st.sections, current := none
        , braceCount := bp.1, parenCount := bp.2 }
    else
      { sections := st.sections, current := some cs
      , braceCount := bp.1, parenCount := bp.2 }

/-- The raw candidate spans (the `sections` array right before scoring). -/
def extractSections (content : String) (language : String)
    (minLines : Nat) (maxLines : Nat) : List SectionSpan :=
  let lines := splitLinesJS content
  let funcRE := funcPatternOf language
  let classRE := classPatternOf language
  let st := lines.enum.foldl (extractStep funcRE classRE minLines maxLines)
    { sections := [], current := none, braceCount := 0, parenCount := 0 }
  match st.current with
  | some cs =>
    if minLines ≤ cs.endL - cs.start then
      match trimToMax cs maxLines with
      | some cs2 => st.sections ++ [cs2]
      | none => st.sections
    else st.sections
  | none => st.sections

/-- `findInterestingSections(content, language, minLines = 10, maxLines = 35)`.
The JS `Array.prototype.sort` with comparator `(a, b) => b.score - a.score`
is a stable descending-by-score sort, embedded as a stable merge sort. -/
def findInterestingSections (content : String) (language : String)
    (minLines : Nat := 10) (maxLines : Nat := 35) : List CodeSection :=
  let lines := splitLinesJS content
  let sections := extractSections content language minLines maxLines
  let scored := (sections.map (fun s => scoreCodeSection s lines language)).filter
    (fun s => decide (0 < s.score))
  sortByDesc (fun s => s.score) scored

/-! ## The sliding-window fallback scoring inside `getRandomCodeSnippet`
(src/lib/github.ts lines 868-915) -/

structure FallbackCandidate where
  start : Nat
  endL : Nat
  score : Int
  reasons : List String
deriving Repr, DecidableEq

/-- `block.filter(l => l.trim().startsWith('//') || l.trim().startsWith('/*')
|| l.trim().startsWith('*')).length`. -/
def commentLineCount (block : List String) : Nat :=
  (block.filter (fun l =>
    startsWithJS (trimJS l) "//" || startsWithJS (trimJS l) "/*" ||
      startsWithJS (trimJS l) "*")).length

/-- The `score += ...` accumulation of the fallback loop body, written as
the sum it computes, in source order. -/
def fallbackScoreOf (blockText : String) (block : List String)
    (complexity : ComplexityInfo) (patterns : PatternInfo) : Int :=
  let cc := complexity.cyclomaticComplexity
  (if 3 ≤ cc then (cc : Int) * 2 else 0)
    + patterns.interestingPatterns.length * 5
    + patterns.potentialIssues.length * 10
    + patterns.educationalValue.length * 8
    + (if 0 < commentLineCount block then min ((commentLineCount block : Int) * 2) 10 else 0)
    + (if reTestCI fallbackErrRE blockText then 5 else 0)
    - (if reTest consoleRE blockText then 3 else 0)
    - (if 5 < complexity.lineLengthIssues then 5 else 0)

/-- The `reasons.push(...)` accumulation of the fallback loop body. -/
def fallbackReasonsOf (blockText : String) (block : List String)
    (complexity : ComplexityInfo) : List String :=
  let cc := complexity.cyclomaticComplexity
  (if 3 ≤ cc then [s!"Complexity: {cc}"] else []) ++
  (if 0 < commentLineCount block then [s!"{commentLineCount block} comment lines"] else []) ++
  (if reTestCI fallbackErrRE blockText then ["Error handling"] else [])

/-- The per-block score/reasons computation of the fallback loop body. -/
def fallbackBlockScored (lines : List String) (blockStart blockEnd : Nat)
    (language : String) : Int × List String :=
  let block := sliceJS lines (blockStart - 1) blockEnd
  let blockText := joinLinesJS block
  let complexity := analyzeCodeComplexity lines blockStart blockEnd
  let patterns := detectCodePatterns lines blockStart blockEnd language
  (fallbackScoreOf blockText block complexity patterns,
   fallbackReasonsOf blockText block complexity)

/-- The score of a fallback sliding-window block. -/
def fallbackBlockScore (lines : List String) (blockStart blockEnd : Nat)
    (language : String) : Int :=
  (fallbackBlockScored lines blockStart blockEnd language).1

/-- The candidate list built by the fallback loop
(`for (let i = 0; i < lines.length - 15; i++) ... if (score > 5) push`). -/
def fallbackCandidates (lines : List String) (language : String) :
    List FallbackCandidate :=
  (List.range (lines.length - 15)).filterMap (fun i =>
    let blockStart := i + 1
    let blockEnd := min (i + 35) lines.length
    let sr := fallbackBlockScored lines blockStart blockEnd language
    if 5 < sr.1 then
      some { start := blockStart, endL := blockEnd, score := sr.1, reasons := sr.2 }
    else none)

/-! ## The snippet cache queue (src/app/page.tsx, `preloadSnippets`)

The client cache is a JS array used as a queue: consumption (`getNextSnippet`)
takes `prev[0]` and keeps `prev.slice(1)`; the preload push is
`setSnippetCache(prev => [...prev, ...newSnippets].slice(0, 50))`. -/

/-- The cache capacity (`// Cap at 50`). -/
def cacheCap : Nat := 50

/-- `[...prev, ...newSnippets].slice(0, 50)` — the state update applied when
a batch of newly acquired snippets is pushed into the queue. -/
def pushSnippets (prev newSnippets : List α) : List α :=
  (prev ++ newSnippets).take cacheCap

/-- `prev.slice(1)` after reading `prev[0]` — the consumption pop. -/
def popSnippet (prev : List α) : Option α × List α :=
  match prev with
  | [] => (none, [])
  | x :: xs => (some x, xs)

/-! ## The rate limit manager (src/lib/rateLimit.ts)

`Date.now()` readings are passed explicitly (`now` is the Unix time in
seconds, `Math.floor(Date.now() / 1000)` in the source).  The `Map` of
per-resource states is an association list keyed by resource name. -/

structure RateLimitState where
  remaining : Int
  resetTime : Int
  limit : Int
  resource : String
deriving Repr, DecidableEq

/-- The `Map<string, RateLimitState>`. -/
def RLMap := List (String × RateLimitState)

def lookupRL (m : RLMap) (res : String) : Option RateLimitState :=
  (List.find? (fun p => p.1 == res) m).map (fun p => p.2)

def setRL (m : RLMap) (res : String) (s : RateLimitState) : RLMap :=
  match m with
  | [] => [(res, s)]
  | p :: rest => if p.1 == res then (res, s) :: rest else p :: setRL rest res s

/-- `updateFromHeaders` after header parsing: the parsed
`x-ratelimit-remaining` / `x-ratelimit-reset` / `x-ratelimit-limit` values
are recorded for `resource` only when `remaining >= 0 && resetTime > 0`
(last writer wins, no merging). -/
def updateFromHeaders (m : RLMap) (remaining resetTime limit : Int)
    (resource : String) : RLMap :=
  if 0 ≤ remaining ∧ 0 < resetTime then
    setRL m resource
      { remaining := remaining, resetTime := resetTime, limit := limit, resource := resource }
  else m

/-- `MIN_DELAY_MS = 100`. -/
def MIN_DELAY_MS : Int := 100
/-- `SEARCH_DELAY_MS = 2000`. -/
def SEARCH_DELAY_MS : Int := 2000

/-- `isRateLimited(resource)`: no entry ⇒ false; otherwise
`remaining <= 0 && resetTime > now`. -/
def isRateLimited (m : RLMap) (resource : String) (now : Int) : Bool :=
  match lookupRL m resource with
  | none => false
  | some st => decide (st.remaining ≤ 0 ∧ now < st.resetTime)

/-- `getTimeUntilReset(resource)`: `max(0, resetTime - now)` in seconds. -/
def getTimeUntilReset (m : RLMap) (resource : String) (now : Int) : Int :=
  match lookupRL m resource with
  | none => 0
  | some st => max 0 (st.resetTime - now)

/-- `getDelayBeforeRequest(resource)` (lines 78-99 of rateLimit.ts). -/
def getDelayBeforeRequest (m : RLMap) (resource : String) (now : Int) : Int :=
  match lookupRL m resource with
  | none => MIN_DELAY_MS
  | some st =>
    if st.remaining ≤ 0 ∧ now < st.resetTime then
      (st.resetTime - now + 1) * 1000
    else if st.remaining < 10 then
      if resource = "search" then SEARCH_DELAY_MS else 500
    else
      if resource = "search" then SEARCH_DELAY_MS else MIN_DELAY_MS

/-! ## An oracle monad for the GitHub collaborator (src/lib/github.ts)

Remote calls are embedded as reads from an oracle environment `Env`: the
`k`-th oracle access returns `env.<call> k`, which is either a structured
response or a thrown error (`Except.error`).  The monad `M` threads the
access counter, propagates thrown errors (JS exceptions), and records a
trace of which REMOTE calls were issued — `try { } catch { }` is embedded
as `tryCatchM`.  `Math.random()` draws and `rateLimitManager.isRateLimited`
reads are oracle accesses too, but being local they leave no trace entry. -/

/-- A thrown collaborator fault (`error.status` when present). -/
structure GhError where
  status : Option Nat
deriving Repr, DecidableEq

/-- The remote GitHub calls the pipeline can issue. -/
inductive GhCall where
  | searchRepos : GhCall
  | repoGet : GhCall
  | listCommits : GhCall
  | getCommit : GhCall
  | getContent : GhCall
deriving Repr, DecidableEq

/-- One commit in a `listCommits` response (author/date fields flattened;
dates are numeric timestamps). -/
structure CommitRef where
  sha : String
  authorName : String
  authorLogin : String
  date : Nat
deriving Repr, DecidableEq

/-- One changed file of a commit-detail response. -/
structure CommitFile where
  filename : String
  status : String
deriving Repr, DecidableEq

/-- A `getCommit` response. -/
structure CommitDetail where
  authorName : String
  authorLogin : String
  date : Nat
  files : List CommitFile
deriving Repr, DecidableEq

/-- One entry of a directory listing. -/
structure DirEntry where
  name : String
  path : String
  isDir : Bool
  size : Nat
deriving Repr, DecidableEq

/-- A `getContent` response: a directory listing or a file (the file's
decoded text content). -/
inductive ContentResult where
  | dir : List DirEntry → ContentResult
  | file : String → ContentResult
deriving Repr, DecidableEq

/-- A `repos.get` response. -/
structure RepoInfo where
  defaultBranch : String
deriving Repr, DecidableEq

/-- The oracle environment: response streams for every collaborator call,
the rate-limit reads and the random draws. -/
structure Env where
  searchRepos : Nat → Except GhError (List String)
  repoGet : Nat → Except GhError RepoInfo
  listCommits : Nat → Except GhError (List CommitRef)
  getCommit : Nat → Except GhError CommitDetail
  getContent : Nat → Except GhError ContentResult
  searchLimited : Nat → Bool
  rand : Nat → Nat

/-- The effect monad: access counter in, result (or thrown error), new
counter and trace of remote calls out. -/
def M (α : Type) : Type := Nat → Except GhError α × Nat × List GhCall

/-- `pure` of `M`: a value, no counter advance, no trace. -/
def M.pure (a : α) : M α := fun n => (Except.ok a, n, [])

/-- `bind` of `M`: sequence two computations, concatenating traces; a
thrown error short-circuits. -/
def M.bind (m : M α) (k : α → M β) : M β := fun n =>
  match m n with
  | (Except.ok a, n', t) =>
    match k a n' with
    | (r, n'', t') => (r, n'', t ++ t')
  | (Except.error e, n', t) => (Except.error e, n', t)

instance : Monad M where
  pure := M.pure
  bind := M.bind

/-- `try { m } catch (e) { h e }`. -/
def tryCatchM (m : M α) (h : GhError → M α) : M α := fun n =>
  match m n with
  | (Except.ok a, n', t) => (Except.ok a, n', t)
  | (Except.error e, n', t) =>
    match h e n' with
    | (r, n'', t') => (r, n'', t ++ t')

theorem M.bind_apply (m : M α) (k : α → M β) (n : Nat) :
    (m >>= k) n =
      match m n with
      | (Except.ok a, n', t) =>
        match k a n' with
        | (r, n'', t') => (r, n'', t ++ t')
      | (Except.error e, n', t) => (Except.error e, n', t) := rfl

theorem M.pure_apply (a : α) (n : Nat) : (pure a : M α) n = (Except.ok a, n, []) := rfl

theorem tryCatchM_apply (m : M α) (h : GhError → M α) (n : Nat) :
    tryCatchM m h n =
      match m n with
      | (Except.ok a, n', t) => (Except.ok a, n', t)
      | (Except.error e, n', t) =>
        match h e n' with
        | (r, n'', t') => (r, n'', t ++ t') := rfl

/-- `throw error` (used only to embed rethrowing handlers; the pipeline's
own handlers never rethrow). -/
def throwM (e : GhError) : M α := fun n => (Except.error e, n, [])

def callSearchRepos (env : Env) : M (List String) := fun n =>
  (env.searchRepos n, n + 1, [GhCall.searchRepos])

def callRepoGet (env : Env) : M RepoInfo := fun n =>
  (env.repoGet n, n + 1, [GhCall.repoGet])

def callListCommits (env : Env) : M (List CommitRef) := fun n =>
  (env.listCommits n, n + 1, [GhCall.listCommits])

def callGetCommit (env : Env) : M CommitDetail := fun n =>
  (env.getCommit n, n + 1, [GhCall.getCommit])

def callGetContent (env : Env) : M ContentResult := fun n =>
  (env.getContent n, n + 1, [GhCall.getContent])

/-- `rateLimitManager.isRateLimited('search')` — a local read, no trace. -/
def checkSearchLimited (env : Env) : M Bool := fun n =>
  (Except.ok (env.searchLimited n), n + 1, [])

/-- A `Math.random()`-based uniform pick, as an oracle draw. -/
def randNat (env : Env) : M Nat := fun n => (Except.ok (env.rand n), n + 1, [])

/-- `l[Math.floor(Math.random() * l.length)]` (callers only pick from
nonempty lists; `d` is the out-of-range placeholder). -/
def pickRandom (env : Env) (l : List α) (d : α) : M α := do
  let r ← randNat env
  pure (l.getD (r % l.length) d)

/-! ## The source-locator functions of src/lib/github.ts -/

/-- The `POPULAR_REPOS` fallback list (lines 58-103). -/
def POPULAR_REPOS : List String :=
  [ "facebook/react", "vercel/next.js", "microsoft/vscode", "nodejs/node"
  , "microsoft/TypeScript", "angular/angular", "vuejs/vue", "golang/go"
  , "rust-lang/rust", "python/cpython"
  , "sveltejs/svelte", "denoland/deno", "tauri-apps/tauri", "supabase/supabase"
  , "t3-oss/create-t3-app", "withastro/astro", "remix-run/remix", "tremorlabs/tremor"
  , "shadcn-ui/ui", "vercel/turbo"
  , "oven-sh/bun", "neovim/neovim", "lapce/lapce", "helix-editor/helix"
  , "zed-industries/zed", "microsoft/playwright", "vitest-dev/vitest", "pnpm/pnpm"
  , "rome/tools", "biomejs/biome"
  , "ryo-ma/github-profile-trophy", "anuraghazra/github-readme-stats", "novuhq/novu"
  , "calcom/cal.com", "appwrite/appwrite", "n8n-io/n8n", "mattermost/mattermost"
  , "outline/outline", "logseq/logseq", "immich-app/immich" ]

/-- `getTrendingRepos` (lines 106-128): issues its repository search
unconditionally inside a `try`, and returns `[]` on any thrown error.  It
performs no rate-limit check of its own. -/
def getTrendingRepos (env : Env) : M (List String) :=
  tryCatchM (do
    let items ← callSearchRepos env
    pure items)
    (fun _ => pure [])

/-- JS `Set` insertion (`repos.add`): keep first occurrence order. -/
def dedupKeepFirst (l : List String) : List String :=
  l.foldl (fun acc x => if acc.contains x then acc else acc ++ [x]) []

/-- One search strategy of `getBrandNewRepos` (lines 148-188): re-check the
rate limit, search inside its own `try`, swallow errors keeping the
accumulated set. -/
def searchStrategy (env : Env) : M (List String) :=
  tryCatchM (do
    let limited ← checkSearchLimited env
    if limited then pure []
    else callSearchRepos env)
    (fun _ => pure [])

/-- `getBrandNewRepos` (lines 131-197): returns `[]` immediately — issuing
no search call — when the search resource is known rate-limited. -/
def getBrandNewRepos (env : Env) : M (List String) := do
  let limited ← checkSearchLimited env
  if limited then pure []
  else
    tryCatchM (do
      let r1 ← searchStrategy env
      let r2 ← searchStrategy env
      pure (dedupKeepFirst (r1 ++ r2)))
      (fun _ => pure [])

/-- JS `a || b` on strings (empty string is falsy). -/
def orElseStr (a b : String) : String := if a == "" then b else a

/-- JS `s.split(sep)` for a single-character separator. -/
def splitChAux (sep : Char) : List Char → List Char → List String
  | [], acc => [String.mk acc.reverse]
  | c :: cs, acc =>
    if c == sep then String.mk acc.reverse :: splitChAux sep cs []
    else splitChAux sep cs (c :: acc)

def splitChJS (s : String) (sep : Char) : List String := splitChAux sep s.data []

/-- `/\.(js|ts|jsx|tsx|py|java|cpp|c|go|rs|rb|php)$/i` on a filename. -/
def codeExtensions : List String :=
  [".js", ".ts", ".jsx", ".tsx", ".py", ".java", ".cpp", ".c", ".go", ".rs", ".rb", ".php"]

def hasCodeExtension (name : String) : Bool :=
  codeExtensions.any (fun e => endsWithJS (toLowerJS name) e)

/-- A recently committed file (`findRecentlyCommittedCode`'s map values). -/
structure RecentFile where
  path : String
  sha : String
  date : Nat
  author : String
  authorLogin : String
deriving Repr, DecidableEq

/-- Processing one changed file of a commit (lines 234-253): filter to code
files, then insert into the map, replacing only with a strictly newer
commit date and keeping the original insertion position (JS `Map.set`). -/
def recentFileStep (sha : String) (authorName authorLogin : String) (date : Nat)
    (acc : List (String × RecentFile)) (f : CommitFile) : List (String × RecentFile) :=
  if (f.status == "added" || f.status == "modified") && hasCodeExtension f.filename &&
      !strIncludes f.filename ".min." && decide (strLen f.filename < 200) &&
      decide (0 < strLen f.filename) then
    let rf : RecentFile :=
      { path := f.filename, sha := sha, date := date
      , author := authorName, authorLogin := authorLogin }
    match List.find? (fun p => p.1 == f.filename) acc with
    | none => acc ++ [(f.filename, rf)]
    | some p =>
      if p.2.date < date then
        acc.map (fun q => if q.1 == f.filename then (q.1, rf) else q)
      else acc
  else acc

/-- `findRecentlyCommittedCode` (lines 200-269).  Dates are numeric
timestamps; the `||`-chains on author fields follow JS falsiness on the
empty string. -/
def findRecentlyCommittedCode (env : Env) : M (List RecentFile) :=
  tryCatchM (do
    let commits ← callListCommits env
    if commits.length == 0 then pure []
    else do
      let recents ← (commits.take 5).foldlM (fun acc c =>
        tryCatchM (do
          let detail ← callGetCommit env
          let authorName := orElseStr detail.authorName (orElseStr detail.authorLogin "Unknown")
          let authorLogin := orElseStr detail.authorLogin (orElseStr detail.authorName "Unknown")
          pure (detail.files.foldl (recentFileStep c.sha authorName authorLogin detail.date) acc))
          (fun _ => pure acc)) ([] : List (String × RecentFile))
      pure (recents.map (fun p => p.2)))
    (fun _ => pure [])

/-- `findCodeFiles` (lines 293-348), fuel = `maxDepth - currentDepth`.
The subdirectory loop pushes the recursive results and breaks once 10
files are accumulated (checked after each push). -/
def findCodeFilesAux (env : Env) : Nat → Nat → M (List DirEntry)
  | 0, _ => pure []
  | fuel + 1, currentDepth =>
    tryCatchM (do
      let contents ← callGetContent env
      match contents with
      | ContentResult.file _ => pure []
      | ContentResult.dir entries =>
        let codeFiles := entries.filter (fun it =>
          !it.isDir && hasCodeExtension it.name &&
            (!(it.size == 0) && decide (it.size < 1000000)) && !strIncludes it.name ".min.")
        let directories := entries.filter (fun it =>
          it.isDir && !startsWithJS it.name "." &&
            !(it.name == "node_modules") && !(it.name == "vendor"))
        if 0 < codeFiles.length && currentDepth ≤ 1 then pure codeFiles
        else do
          let st ← (directories.take 3).foldlM (fun (st : List DirEntry × Bool) _dir =>
            if st.2 then pure st
            else do
              let sub ← findCodeFilesAux env fuel (currentDepth + 1)
              let acc := st.1 ++ sub
              pure (acc, decide (10 ≤ acc.length))) (codeFiles, false)
          pure st.1)
      (fun _ => pure [])

def findCodeFiles (env : Env) : M (List DirEntry) := findCodeFilesAux env 3 0

/-! ## `getRandomCodeSnippet` (src/lib/github.ts lines 688-1005) -/

structure CommitInfo where
  author : String
  authorLogin : String
  date : Nat
deriving Repr, DecidableEq

/-- A candidate file as used inside the attempt body. -/
structure FileItem where
  path : String
  name : String
  size : Nat
  commitInfo : Option CommitInfo
deriving Repr, DecidableEq

structure CodeSnippet where
  repository : String
  filePath : String
  content : String
  language : String
  startLine : Nat
  endLine : Nat
  url : String
  score : Option Int
  metrics : Option Metrics
  commitAuthor : Option String
  commitAuthorLogin : Option String
  commitDate : Option Nat
deriving Repr, DecidableEq

/-- `file.path.split('/').pop() || file.path`. -/
def lastPathComponent (p : String) : String :=
  let l := (splitChJS p '/').getLastD ""
  if l == "" then p else l

/-- `randomFile.name.split('.').pop()?.toLowerCase() || 'text'`. -/
def extOf (name : String) : String :=
  let last := toLowerJS ((splitChJS name '.').getLastD "")
  if last == "" then "text" else last

/-- The `languageMap` table (lines 805-818); unknown extensions map to
themselves. -/
def languageMap (ext : String) : String :=
  if ext == "js" then "javascript" else if ext == "jsx" then "javascript"
  else if ext == "ts" then "typescript" else if ext == "tsx" then "typescript"
  else if ext == "py" then "python" else if ext == "java" then "java"
  else if ext == "cpp" then "cpp" else if ext == "c" then "c"
  else if ext == "go" then "go" else if ext == "rs" then "rust"
  else if ext == "rb" then "ruby" else if ext == "php" then "php"
  else ext

/-- The selection-local mutable variables of the attempt body. -/
structure SnipSel where
  startLine : Nat
  endLine : Nat
  snippetContent : String
  selectedSection : Option CodeSection
  snippetScore : Option Int
  snippetMetrics : Option Metrics
deriving Repr, DecidableEq

def dfltSection : CodeSection :=
  { start := 0, endL := 0, type := "", score := 0
  , metrics := { complexity := 0, codeSmells := 0, interestingPatterns := 0
               , educationalValue := 0, potentialIssues := 0 }
  , reasons := [] }

def dfltFallback : FallbackCandidate := { start := 0, endL := 0, score := 0, reasons := [] }

/-- The fast-mode selection (lines 829-835). -/
def fastSel (lines : List String) : SnipSel :=
  let midPoint := lines.length / 2
  let startLine := max 1 (midPoint - 10)
  let endLine := min (startLine + 34) lines.length
  { startLine := startLine, endLine := endLine
  , snippetContent := joinLinesJS (sliceJS lines (startLine - 1) endLine)
  , selectedSection := none, snippetScore := some 5, snippetMetrics := none }

/-- The full-mode selection (lines 837-936).  `Math.floor(len * 0.3)` /
`Math.floor(len * 0.4)` are taken as exact rational floors, and the
`Math.random()` draw for the tier choice is an oracle draw reduced mod 100
(`< 0.7` becomes `< 70`, `< 0.95` becomes `< 95`). -/
def fullSel (env : Env) (lines : List String) (content language : String) : M SnipSel := do
  let sections := findInterestingSections content language 10 35
  if 0 < sections.length then do
    let topCount := max 1 (sections.length * 3 / 10)
    let midCount := max 1 (sections.length * 4 / 10)
    let topSections := sections.take topCount
    let midSections := sliceJS sections topCount (topCount + midCount)
    let restSections := sections.drop (topCount + midCount)
    let r ← randNat env
    let rand := r % 100
    let sel ←
      if rand < 70 && 0 < topSections.length then pickRandom env topSections dfltSection
      else if rand < 95 && 0 < midSections.length then pickRandom env midSections dfltSection
      else if 0 < restSections.length then pickRandom env restSections dfltSection
      else pure (sections.getD 0 dfltSection)
    let endLine := min sel.endL (sel.start + 34)
    pure { startLine := sel.start, endLine := endLine
         , snippetContent := joinLinesJS (sliceJS lines (sel.start - 1) endLine)
         , selectedSection := some sel, snippetScore := some sel.score
         , snippetMetrics := some sel.metrics }
  else do
    let candidates := fallbackCandidates lines language
    if 0 < candidates.length then do
      let sorted := sortByDesc (fun c => c.score) candidates
      let topCandidates := sorted.take (min 5 sorted.length)
      let selected ← pickRandom env topCandidates dfltFallback
      let endLine := min selected.endL (selected.start + 34)
      pure { startLine := selected.start, endLine := endLine
           , snippetContent := joinLinesJS (sliceJS lines (selected.start - 1) endLine)
           , selectedSection := none, snippetScore := none, snippetMetrics := none }
    else
      let midPoint := lines.length / 2
      let startLine := max 1 (midPoint - 15)
      let endLine := min (startLine + 34) lines.length
      pure { startLine := startLine, endLine := endLine
           , snippetContent := joinLinesJS (sliceJS lines (startLine - 1) endLine)
           , selectedSection := none, snippetScore := some 3, snippetMetrics := none }

/-- Lines 945-957: `if (!snippetScore || !snippetMetrics)` — recompute the
score/metrics via `scoreCodeSection` for fallback blocks (`0` is falsy and
is replaced; a nonzero score already set is kept). -/
def fillScore (sel : SnipSel) (lines : List String) (language : String) : SnipSel :=
  match sel.selectedSection with
  | some s => { sel with snippetScore := some s.score, snippetMetrics := some s.metrics }
  | none =>
    let scored := scoreCodeSection
      { start := sel.startLine, endL := sel.endLine, type := "block" } lines language
    { sel with
      snippetScore := some (match sel.snippetScore with
        | some v => if v == 0 then scored.score else v
        | none => scored.score)
    , snippetMetrics := some (match sel.snippetMetrics with
        | some m => m
        | none => scored.metrics) }

def mkUrl (repo branch path : String) (startLine endLine : Nat) : String :=
  s!"https://github.com/{repo}/blob/{branch}/{path}#L{startLine}-L{endLine}"

/-- One iteration of the attempt loop, up to `return` / `continue` / a
thrown error: `pure (some s)` embeds the successful `return`, `pure none`
embeds `continue`, and a thrown collaborator fault propagates out (to be
caught by the loop's `catch`). -/
def attemptBody (env : Env) (availableRepos : List String) (fastMode : Bool) :
    M (Option CodeSnippet) := do
  let repo ← pickRandom env availableRepos ""
  let repoInfo ← callRepoGet env
  let defaultBranch := orElseStr repoInfo.defaultBranch "main"
  let recentFiles ← tryCatchM (findRecentlyCommittedCode env) (fun _ => pure [])
  let codeFilesA : List FileItem := recentFiles.map (fun f =>
    { path := f.path, name := lastPathComponent f.path, size := 0
    , commitInfo := some { author := f.author, authorLogin := f.authorLogin, date := f.date } })
  let codeFiles ←
    if codeFilesA.length == 0 then do
      let entries ← findCodeFiles env
      pure (entries.map (fun e =>
        ({ path := e.path, name := e.name, size := e.size, commitInfo := none } : FileItem)))
    else pure codeFilesA
  if codeFiles.length == 0 then pure none
  else do
    let randomFile ← pickRandom env codeFiles { path := "", name := "", size := 0, commitInfo := none }
    let commitInfo ←
      match randomFile.commitInfo with
      | some ci => pure (some ci)
      | none =>
        tryCatchM (do
          let commits ← callListCommits env
          match commits with
          | [] => pure none
          | c :: _ => pure (some
            ({ author := orElseStr c.authorName (orElseStr c.authorLogin "Unknown")
             , authorLogin := orElseStr c.authorLogin (orElseStr c.authorName "Unknown")
             , date := c.date } : CommitInfo)))
          (fun _ => pure none)
    let fileContent ← callGetContent env
    match fileContent with
    | ContentResult.dir _ => pure none
    | ContentResult.file content =>
      let lines := splitLinesJS content
      if lines.length < 15 then pure none
      else do
        let extension := extOf randomFile.name
        let language := languageMap extension
        let sel ← if fastMode then pure (fastSel lines) else fullSel env lines content language
        let contentLines := splitLinesJS sel.snippetContent
        let sel :=
          if 35 < contentLines.length then
            { sel with snippetContent := joinLinesJS (contentLines.take 35)
                     , endLine := sel.startLine + 34 }
          else sel
        let needFill :=
          (match sel.snippetScore with | none => true | some v => v == 0) ||
            sel.snippetMetrics.isNone
        let sel := if needFill then fillScore sel lines language else sel
        pure (some
          { repository := repo
          , filePath := randomFile.path
          , content := sel.snippetContent
          , language := language
          , startLine := sel.startLine
          , endLine := sel.endLine
          , url := mkUrl repo defaultBranch randomFile.path sel.startLine sel.endLine
          , score := sel.snippetScore
          , metrics := sel.snippetMetrics
          , commitAuthor := commitInfo.map (fun c => c.author)
          , commitAuthorLogin := commitInfo.map (fun c => c.authorLogin)
          , commitDate := commitInfo.map (fun c => c.date) })

/-- The 3-tier repository pool selection (lines 692-707). -/
def selectRepoPool (env : Env) : M (List String) := do
  let newRepos ← getBrandNewRepos env
  if 0 < newRepos.length then pure newRepos
  else do
    let trending ← getTrendingRepos env
    if 0 < trending.length then pure trending
    else pure POPULAR_REPOS

/-- The `for (attempt = 1; attempt <= maxRetries; attempt++)` loop with its
all-swallowing `catch` (lines 709-1004): an error or a `continue` advances
to the next attempt; exhaustion returns `null`. -/
def attemptLoop (env : Env) (availableRepos : List String) (fastMode : Bool) :
    Nat → M (Option CodeSnippet)
  | 0 => pure none
  | k + 1 => do
    let r ← tryCatchM (attemptBody env availableRepos fastMode) (fun _ => pure none)
    match r with
    | some s => pure (some s)
    | none => attemptLoop env availableRepos fastMode k

/-- `getRandomCodeSnippet(maxRetries = 3, fastMode = false)`. -/
def getRandomCodeSnippet (env : Env) (maxRetries : Nat := 3) (fastMode : Bool := false) :
    M (Option CodeSnippet) := do
  let availableRepos ← selectRepoPool env
  attemptLoop env availableRepos fastMode maxRetries

/-! ## Specification-side definitions and concrete exhibits -/

/-- The spec's claimed length-band adjustment, with the bands read in span
line count (`end - start + 1`): `+5` for 15-30 lines, `+2` for 30-35 lines,
`-15` beyond the maximum of 35 lines. -/
def claimedLengthAdjustment (lineCount : Nat) : Int :=
  if 15 ≤ lineCount ∧ lineCount ≤ 30 then 5
  else if 30 < lineCount ∧ lineCount ≤ 35 then 2
  else if 35 < lineCount then -15
  else 0

/-- The length-band adjustment the code actually applies, expressed in span
line count: the source tests `length = end - start` (one less than the line
count), so the bands are `+5` for 16-31 lines, `+2` for 32-36 lines and
`-15` for 37 or more lines. -/
def lengthAdjustment (lineCount : Nat) : Int :=
  if 16 ≤ lineCount ∧ lineCount ≤ 31 then 5
  else if 32 ≤ lineCount ∧ lineCount ≤ 36 then 2
  else if 37 ≤ lineCount then -15
  else 0

/-- The complexity bonus band shared by claim and code: `+15` for
cyclomatic complexity 5-15, `+20` above. -/
def complexityBonus (cc : Nat) : Int :=
  if 5 ≤ cc ∧ cc ≤ 15 then 15 else if 15 < cc then 20 else 0

/-- The additive score the claim (C5) asserts for a span. -/
def claimedScore (sec : SectionSpan) (lines : List String) (language : String) : Int :=
  let c := analyzeCodeComplexity lines sec.start sec.endL
  let p := detectCodePatterns lines sec.start sec.endL language
  complexityBonus c.cyclomaticComplexity
    + (if 3 ≤ c.nestingDepth then 10 else 0)
    + 5 * p.codeSmells.length
    + 8 * p.interestingPatterns.length
    + 15 * p.potentialIssues.length
    + 10 * p.educationalValue.length
    + (if 0 < c.magicNumbers then 5 else 0)
    + (if c.longParameterList then 5 else 0)
    + claimedLengthAdjustment (sec.endL - sec.start + 1)

/-- A 36-line file: a declaration line opening a brace, 34 comment lines,
and the closing brace.  The brace balance first returns to zero on line 36,
where `end - start = 35` is not `> maxLines`, so the span is pushed
untrimmed with 36 lines. -/
def maxSpanViolationInput : String :=
  joinLinesJS
    (["function foo() \x7b"] ++
     ["// algorithm security test optimization factory"] ++
     (List.replicate 33 "//x") ++ ["\x7d"])

/-- 20 blank lines (the scorers disagree on spans of such a file). -/
def blankLines20 : List String := List.replicate 20 ""

/-- A 12-line file with one balanced 12-line function, for concrete
evaluations of `findInterestingSections`. -/
def smallSectionInput : String :=
  joinLinesJS
    (["function foo() \x7b"] ++
     ["// algorithm security"] ++
     (List.replicate 9 "//x") ++ ["\x7d"])

/-- An environment whose rate-limit oracle always reports the search
resource as limited. -/
def envAllLimited : Env :=
  { searchRepos := fun _ => Except.ok ["octocat/hello"]
  , repoGet := fun _ => Except.ok { defaultBranch := "main" }
  , listCommits := fun _ => Except.ok []
  , getCommit := fun _ => Except.error { status := some 404 }
  , getContent := fun _ => Except.ok (ContentResult.file "")
  , searchLimited := fun _ => true
  , rand := fun _ => 0 }

/-! # Theorems -/

/-! ## C2 — cache queue capacity and eviction direction -/

/-- C2 counterexample: pushing one new snippet into a full queue of 50 old
entries leaves the queue unchanged — the newly pushed entry is NOT
retained, contradicting the claim that the oldest entries are evicted first
so that new entries survive. -/
theorem C2_counterexample :
    pushSnippets (List.replicate 50 (0 : Nat)) [1] = List.replicate 50 0 ∧
    (1 : Nat) ∉ pushSnippets (List.replicate 50 (0 : Nat)) [1] := by
  constructor
  · decide
  · decide

/-- C2 (amended): the queue never exceeds its capacity of 50; a push that
fits keeps everything, and a push into a full queue keeps the 50 OLDEST
entries — the excess newest entries are the ones discarded. -/
theorem C2_amended {α : Type} (prev newSnippets : List α) :
    (pushSnippets prev newSnippets).length ≤ cacheCap ∧
    (prev.length + newSnippets.length ≤ cacheCap →
      pushSnippets prev newSnippets = prev ++ newSnippets) ∧
    (cacheCap ≤ prev.length → pushSnippets prev newSnippets = prev.take cacheCap) := by
  refine ⟨?_, ?_, ?_⟩
  · simp [pushSnippets]
  · intro h
    apply List.take_of_length_le
    simpa using h
  · intro h
    unfold pushSnippets
    rw [List.take_append_eq_append_take]
    have h0 : cacheCap - prev.length = 0 := by omega
    simp [h0]

/-- C2 witness: the amended theorem applied to a concrete full queue. -/
theorem C2_witness :
    pushSnippets (List.replicate 50 (0 : Nat)) [] = List.replicate 50 0 ++ [] ∧
    pushSnippets (List.replicate 50 (0 : Nat)) [] = (List.replicate 50 (0 : Nat)).take 50 :=
  ⟨(C2_amended (List.replicate 50 (0 : Nat)) []).2.1 (by decide),
   (C2_amended (List.replicate 50 (0 : Nat)) []).2.2 (by decide)⟩

/-! ## C6 — `isRateLimited` -/

/-- Auxiliary: `Map.set` followed by `Map.get` on the same key. -/
theorem lookupRL_setRL (m : RLMap) (res : String) (st : RateLimitState) :
    lookupRL (setRL m res st) res = some st := by
  induction m with
  | nil => simp [setRL, lookupRL, List.find?]
  | cons p rest ih =>
    by_cases h : p.1 == res
    · simp [setRL, h, lookupRL, List.find?]
    · simp only [setRL, h, Bool.false_eq_true, if_false]
      simp only [lookupRL, List.find?] at ih ⊢
      rw [Bool.eq_false_iff.mpr h]
      exact ih

/-- C6: with a known state, `isRateLimited(resource)` is true iff
`remaining <= 0` and `resetTime > now`; it is true immediately after an
update recording `remaining = 0` with a future reset time, and false after
an update recording `remaining > 0`. -/
theorem C6_isRateLimited (m : RLMap) (res : String) (now : Int) (h0 : 0 ≤ now) :
    (∀ st, lookupRL m res = some st →
      (isRateLimited m res now = true ↔ st.remaining ≤ 0 ∧ now < st.resetTime)) ∧
    (∀ rt lim : Int, now < rt →
      isRateLimited (updateFromHeaders m 0 rt lim res) res now = true) ∧
    (∀ rem rt lim : Int, 0 < rem → 0 < rt →
      isRateLimited (updateFromHeaders m rem rt lim res) res now = false) := by
  refine ⟨?_, ?_, ?_⟩
  · intro st h
    simp [isRateLimited, h]
  · intro rt lim hrt
    have hg : (0 : Int) ≤ 0 ∧ (0 : Int) < rt := ⟨le_refl 0, lt_of_le_of_lt h0 hrt⟩
    simp [updateFromHeaders, hg, isRateLimited, lookupRL_setRL]
    exact hrt
  · intro rem rt lim hrem hrt
    have hg : (0 : Int) ≤ rem ∧ (0 : Int) < rt := ⟨le_of_lt hrem, hrt⟩
    simp [updateFromHeaders, hg, isRateLimited, lookupRL_setRL]
    omega

/-- C6 witness: after recording `remaining = 0` resetting at time 10,
`isRateLimited` is true at time 5; after recording `remaining = 3` it is
false; and the iff holds on a concrete known state. -/
theorem C6_witness :
    isRateLimited (updateFromHeaders [] 0 10 60 "core") "core" 5 = true ∧
    isRateLimited (updateFromHeaders [] 3 10 60 "core") "core" 5 = false ∧
    (isRateLimited [("core", ⟨0, 10, 60, "core"⟩)] "core" 5 = true ↔
      (0 : Int) ≤ 0 ∧ (5 : Int) < 10) :=
  ⟨(C6_isRateLimited [] "core" 5 (by decide)).2.1 10 60 (by decide),
   (C6_isRateLimited [] "core" 5 (by decide)).2.2 3 10 60 (by decide) (by decide),
   (C6_isRateLimited [("core", ⟨0, 10, 60, "core"⟩)] "core" 5 (by decide)).1
     ⟨0, 10, 60, "core"⟩ (by decide)⟩

/-! ## C7 — `getDelayBeforeRequest` -/

/-- C7 counterexample: for the search resource with plenty of quota left
(`remaining = 100`, well above the low-quota threshold of 10), the delay is
the elevated search delay (2000 ms), the same value as in the low-quota
case — not the small minimum delay (100 ms) the claim describes for the
"otherwise" case (and which the no-state case returns). -/
theorem C7_counterexample :
    getDelayBeforeRequest [("search", ⟨100, 50, 5000, "search"⟩)] "search" 100 =
      SEARCH_DELAY_MS ∧
    getDelayBeforeRequest [("search", ⟨5, 50, 5000, "search"⟩)] "search" 100 =
      SEARCH_DELAY_MS ∧
    getDelayBeforeRequest [] "search" 100 = MIN_DELAY_MS ∧
    SEARCH_DELAY_MS ≠ MIN_DELAY_MS := by
  refine ⟨by decide, by decide, by decide, by decide⟩

/-- C7 (amended): the delay is `(resetTime - now + 1) * 1000` ms when
exhausted with the reset pending; the elevated per-resource delay (2000 ms
for search, 500 ms otherwise) when `remaining < 10`; otherwise the
resource's BASELINE delay — 2000 ms for search (coinciding with its
elevated delay), 100 ms for a general resource; and 100 ms when no state is
known. -/
theorem C7_delayBeforeRequest (m : RLMap) (res : String) (now : Int) :
    (lookupRL m res = none → getDelayBeforeRequest m res now = MIN_DELAY_MS) ∧
    (∀ st, lookupRL m res = some st →
      (st.remaining ≤ 0 → now < st.resetTime →
        getDelayBeforeRequest m res now = (st.resetTime - now + 1) * 1000) ∧
      (¬(st.remaining ≤ 0 ∧ now < st.resetTime) → st.remaining < 10 →
        getDelayBeforeRequest m res now =
          if res = "search" then SEARCH_DELAY_MS else 500) ∧
      (¬(st.remaining ≤ 0 ∧ now < st.resetTime) → 10 ≤ st.remaining →
        getDelayBeforeRequest m res now =
          if res = "search" then SEARCH_DELAY_MS else MIN_DELAY_MS)) := by
  constructor
  · intro h
    simp [getDelayBeforeRequest, h]
  · intro st h
    refine ⟨?_, ?_, ?_⟩
    · intro h1 h2
      simp [getDelayBeforeRequest, h, h1, h2]
    · intro h1 h2
      simp only [getDelayBeforeRequest, h]
      rw [if_neg h1, if_pos h2]
    · intro h1 h2
      simp only [getDelayBeforeRequest, h]
      rw [if_neg h1, if_neg (by omega)]

/-- C7 witness: the amended theorem applied to each branch at concrete
states. -/
theorem C7_witness :
    getDelayBeforeRequest [] "core" 0 = MIN_DELAY_MS ∧
    getDelayBeforeRequest [("core", ⟨0, 10, 60, "core"⟩)] "core" 5 = (10 - 5 + 1) * 1000 ∧
    getDelayBeforeRequest [("core", ⟨5, 3, 60, "core"⟩)] "core" 5 =
      (if "core" = "search" then SEARCH_DELAY_MS else 500) ∧
    getDelayBeforeRequest [("search", ⟨50, 3, 60, "search"⟩)] "search" 5 =
      (if "search" = "search" then SEARCH_DELAY_MS else MIN_DELAY_MS) :=
  ⟨(C7_delayBeforeRequest [] "core" 0).1 (by decide),
   ((C7_delayBeforeRequest [("core", ⟨0, 10, 60, "core"⟩)] "core" 5).2
     ⟨0, 10, 60, "core"⟩ (by decide)).1 (by decide) (by decide),
   ((C7_delayBeforeRequest [("core", ⟨5, 3, 60, "core"⟩)] "core" 5).2
     ⟨5, 3, 60, "core"⟩ (by decide)).2.1 (by decide) (by decide),
   ((C7_delayBeforeRequest [("search", ⟨50, 3, 60, "search"⟩)] "search" 5).2
     ⟨50, 3, 60, "search"⟩ (by decide)).2.2 (by decide) (by decide)⟩

/-! ## C8 — determinism of the analyzer + scorer -/

/-- C8: the analyzer-plus-scorer pipeline is a pure function of
`(lines, start, end, language)`: two invocations on identical inputs give
an identical scored section (hence identical score) and identical tag sets. -/
theorem C8_deterministic (lines : List String) (s e : Nat) (ty language : String) :
    scoreCodeSection ⟨s, e, ty⟩ lines language = scoreCodeSection ⟨s, e, ty⟩ lines language ∧
    detectCodePatterns lines s e language = detectCodePatterns lines s e language :=
  ⟨rfl, rfl⟩

/-! ## C5 — the additive scoring formula -/

/-- C5 counterexample: on a span of 15 lines (`start = 1`, `end = 15`) of a
blank 20-line file, the claimed additive combination gives 5 (the +5
length-band bonus for "15-30 lines"), but `scoreCodeSection` gives 0: the
source measures `length = end - start = 14`, which falls below its `>= 15`
band. -/
theorem C5_counterexample :
    claimedScore ⟨1, 15, "block"⟩ blankLines20 "javascript" = 5 ∧
    (scoreCodeSection ⟨1, 15, "block"⟩ blankLines20 "javascript").score = 0 := by
  constructor
  · decide
  · decide

/-- C5 (amended): the score is the claimed additive combination except that
the length bands are shifted by one line: measured in span line count
(`end - start + 1`), the adjustment is +5 for 16-31 lines, +2 for 32-36
lines, and -15 only for 37 lines or more. -/
theorem C5_scoreFormula (sec : SectionSpan) (lines : List String) (language : String) :
    (scoreCodeSection sec lines language).score =
      (let c := analyzeCodeComplexity lines sec.start sec.endL
       let p := detectCodePatterns lines sec.start sec.endL language
       complexityBonus c.cyclomaticComplexity
         + (if 3 ≤ c.nestingDepth then 10 else 0)
         + (p.codeSmells.length * 5 : Nat)
         + (p.interestingPatterns.length * 8 : Nat)
         + (p.potentialIssues.length * 15 : Nat)
         + (p.educationalValue.length * 10 : Nat)
         + (if 0 < c.magicNumbers then 5 else 0)
         + (if c.longParameterList then 5 else 0)
         + lengthAdjustment (sec.endL - sec.start + 1)) := by
  have shift : ∀ d : Nat, lengthAdjustment (d + 1) =
      (if 15 ≤ d ∧ d ≤ 30 then (5 : Int)
       else if 30 < d ∧ d ≤ 35 then 2
       else if 35 < d then -15 else 0) := by
    intro d
    simp only [lengthAdjustment]
    split_ifs <;> omega
  simp only [scoreCodeSection, scoreOfSection, complexityBonus, shift]
  split_ifs <;> omega

/-! ## C4 — fallback block scoring vs the primary scorer -/

/-- C4 counterexample: on the span (1, 20) of a blank 20-line file the
primary scorer gives 5 (length-band bonus) while the fallback block scorer
gives 0 — the fallback is not the same scoring computation. -/
theorem C4_counterexample :
    fallbackBlockScore blankLines20 1 20 "javascript" = 0 ∧
    (scoreCodeSection ⟨1, 20, "block"⟩ blankLines20 "javascript").score = 5 ∧
    fallbackBlockScore blankLines20 1 20 "javascript" ≠
      (scoreCodeSection ⟨1, 20, "block"⟩ blankLines20 "javascript").score := by
  refine ⟨by decide, by decide, by decide⟩

/-- C4 (amended): fallback candidate blocks are scored by the sliding
window's own additive formula — 2×complexity when complexity ≥ 3, +5 per
interesting pattern, +10 per potential issue, +8 per educational tag, a
comment-line bonus of min(2×count, 10), +5 for error-handling keywords,
−3 for console statements and −5 for more than five over-length lines —
not by `scoreCodeSection`. -/
theorem C4_fallbackFormula (lines : List String) (blockStart blockEnd : Nat)
    (language : String) :
    fallbackBlockScore lines blockStart blockEnd language =
      (let block := sliceJS lines (blockStart - 1) blockEnd
       let c := analyzeCodeComplexity lines blockStart blockEnd
       let p := detectCodePatterns lines blockStart blockEnd language
       (if 3 ≤ c.cyclomaticComplexity then (c.cyclomaticComplexity : Int) * 2 else 0)
         + (p.interestingPatterns.length * 5 : Nat)
         + (p.potentialIssues.length * 10 : Nat)
         + (p.educationalValue.length * 8 : Nat)
         + (if 0 < commentLineCount block then
             min ((commentLineCount block : Int) * 2) 10 else 0)
         + (if reTestCI fallbackErrRE (joinLinesJS block) then 5 else 0)
         - (if reTest consoleRE (joinLinesJS block) then 3 else 0)
         - (if 5 < c.lineLengthIssues then 5 else 0)) := by
  simp only [fallbackBlockScore, fallbackBlockScored, fallbackScoreOf]
  split_ifs <;> push_cast <;> omega

/-! ## C3 — rate-limit skip on the repository tiers -/

/-- C3 counterexample: with the search resource reported rate-limited at
every instant, `getTrendingRepos` (the secondary, trending tier) still
issues its remote repository-search call — the trace of remote calls is
`[searchRepos]`, not `[]`. -/
theorem C3_counterexample :
    envAllLimited.searchLimited 0 = true ∧
    (getTrendingRepos envAllLimited 0).2.2 = [GhCall.searchRepos] :=
  ⟨rfl, rfl⟩

/-- C3 (amended): only the primary tier applies the skip rule — when the
search resource is known rate-limited, `getBrandNewRepos` returns `[]`
without issuing any remote call, while `getTrendingRepos` issues exactly
one remote search call no matter what the rate-limit state is. -/
theorem C3_skipAsymmetry (env : Env) (n : Nat) :
    (env.searchLimited n = true → getBrandNewRepos env n = (Except.ok [], n + 1, [])) ∧
    (getTrendingRepos env n).2.2 = [GhCall.searchRepos] := by
  constructor
  · intro h
    simp only [getBrandNewRepos, M.bind_apply, checkSearchLimited, h, if_true,
      M.pure_apply]
    rfl
  · simp only [getTrendingRepos, tryCatchM_apply, M.bind_apply, callSearchRepos]
    rcases hE : env.searchRepos n with e | l
    · simp [M.pure_apply]
    · simp [M.pure_apply]

/-- C3 witness: the amended theorem applied to the all-limited environment. -/
theorem C3_witness :
    getBrandNewRepos envAllLimited 0 = (Except.ok [], 1, []) ∧
    (getTrendingRepos envAllLimited 0).2.2 = [GhCall.searchRepos] :=
  ⟨(C3_skipAsymmetry envAllLimited 0).1 rfl, (C3_skipAsymmetry envAllLimited 0).2⟩

/-! ## C1 — the span line-count bound -/

set_option maxRecDepth 100000 in
set_option maxHeartbeats 8000000 in
/-- C1: evaluating `findInterestingSections` on the 36-line input shows it
returns the single span `(start, end) = (1, 36)` — a span of
`end - start + 1 = 36` lines, exceeding the claimed maximum of 35.  (The
close path trims only when `end - start > maxLines`, so a span whose brace
balance first returns to zero with `end - start = 35` is pushed untrimmed
with 36 lines.) -/
theorem C1_bug_eval :
    (findInterestingSections maxSpanViolationInput "javascript" 10 35).map
      (fun s => (s.start, s.endL)) = [(1, 36)] := by
  decide

/-! ## C10 — positivity and sortedness of the extraction output -/

theorem mem_insertByDesc {α : Type} (key : α → Int) (x y : α) (l : List α) :
    y ∈ insertByDesc key x l ↔ y = x ∨ y ∈ l := by
  induction l with
  | nil => simp [insertByDesc]
  | cons z zs ih =>
    simp only [insertByDesc]
    split_ifs
    · simp [List.mem_cons]
    · simp only [List.mem_cons, ih]
      tauto

theorem pairwise_insertByDesc {α : Type} (key : α → Int) (x : α) (l : List α)
    (hl : l.Pairwise (fun a b => key b ≤ key a)) :
    (insertByDesc key x l).Pairwise (fun a b => key b ≤ key a) := by
  induction l with
  | nil => simp [insertByDesc]
  | cons z zs ih =>
    rcases List.pairwise_cons.mp hl with ⟨hz, hzs⟩
    simp only [insertByDesc]
    split_ifs with hkey
    · refine List.pairwise_cons.mpr ⟨?_, hl⟩
      intro b hb
      rcases List.mem_cons.mp hb with rfl | hb
      · exact le_of_lt hkey
      · exact le_trans (hz b hb) (le_of_lt hkey)
    · refine List.pairwise_cons.mpr ⟨?_, ih hzs⟩
      intro b hb
      rcases (mem_insertByDesc key x b zs).mp hb with rfl | hb
      · omega
      · exact hz b hb

theorem pairwise_sortByDesc {α : Type} (key : α → Int) (l : List α) :
    (sortByDesc key l).Pairwise (fun a b => key b ≤ key a) := by
  suffices h : ∀ acc : List α, acc.Pairwise (fun a b => key b ≤ key a) →
      (l.foldl (fun acc x => insertByDesc key x acc) acc).Pairwise
        (fun a b => key b ≤ key a) from h [] (by simp)
  induction l with
  | nil => intro acc hacc; simpa using hacc
  | cons x xs ih =>
    intro acc hacc
    exact ih _ (pairwise_insertByDesc key x acc hacc)

theorem mem_sortByDesc {α : Type} (key : α → Int) (l : List α) (y : α) :
    y ∈ sortByDesc key l ↔ y ∈ l := by
  suffices h : ∀ acc : List α,
      (y ∈ l.foldl (fun acc x => insertByDesc key x acc) acc ↔ y ∈ acc ∨ y ∈ l) by
    simpa using h []
  induction l with
  | nil => intro acc; simp
  | cons x xs ih =>
    intro acc
    simp only [List.foldl_cons, ih, mem_insertByDesc, List.mem_cons]
    tauto

/-- C10: every section returned by `findInterestingSections` has a strictly
positive score, and the returned list is sorted descending by score. -/
theorem C10_positiveSorted (content language : String) (minLines maxLines : Nat) :
    (findInterestingSections content language minLines maxLines).all
      (fun s => decide (0 < s.score)) = true ∧
    (findInterestingSections content language minLines maxLines).Pairwise
      (fun a b => b.score ≤ a.score) := by
  constructor
  · rw [List.all_eq_true]
    intro s hs
    simp only [findInterestingSections] at hs
    rw [mem_sortByDesc] at hs
    exact (List.mem_filter.mp hs).2
  · simp only [findInterestingSections]
    exact pairwise_sortByDesc _ _

/-! ## C9 — the scheduler boundary never observes a thrown fault -/

/-- A computation that never ends in a thrown error, whatever the oracle
responses. -/
def AlwaysOk (m : M α) : Prop :=
  ∀ n, ∃ (v : α) (rest : Nat × List GhCall), m n = (Except.ok v, rest)

theorem alwaysOk_pure (a : α) : AlwaysOk (pure a : M α) :=
  fun n => ⟨a, (n, []), rfl⟩

theorem alwaysOk_bind {m : M α} {k : α → M β} (hm : AlwaysOk m)
    (hk : ∀ a, AlwaysOk (k a)) : AlwaysOk (m >>= k) := by
  intro n
  rcases hm n with ⟨v, ⟨n1, t1⟩, hv⟩
  rcases hk v n1 with ⟨w, ⟨n2, t2⟩, hw⟩
  exact ⟨w, (n2, t1 ++ t2), by simp only [M.bind_apply, hv, hw]⟩

/-- A `try`/`catch` whose handler never throws never throws, whatever the
tried computation does. -/
theorem alwaysOk_tryCatchM {m : M α} {h : GhError → M α}
    (hh : ∀ e, AlwaysOk (h e)) : AlwaysOk (tryCatchM m h) := by
  intro n
  rcases hE : m n with ⟨r, n1, t1⟩
  cases r with
  | ok v => exact ⟨v, (n1, t1), by simp only [tryCatchM_apply, hE]⟩
  | error e =>
    rcases hh e n1 with ⟨w, ⟨n2, t2⟩, hw⟩
    exact ⟨w, (n2, t1 ++ t2), by simp only [tryCatchM_apply, hE, hw]⟩

theorem alwaysOk_ite {c : Prop} [Decidable c] {m₁ m₂ : M α}
    (h1 : AlwaysOk m₁) (h2 : AlwaysOk m₂) : AlwaysOk (if c then m₁ else m₂) := by
  split_ifs <;> assumption

theorem alwaysOk_checkSearchLimited (env : Env) : AlwaysOk (checkSearchLimited env) :=
  fun n => ⟨env.searchLimited n, (n + 1, []), rfl⟩

theorem alwaysOk_getTrendingRepos (env : Env) : AlwaysOk (getTrendingRepos env) :=
  alwaysOk_tryCatchM (fun _ => alwaysOk_pure [])

theorem alwaysOk_getBrandNewRepos (env : Env) : AlwaysOk (getBrandNewRepos env) :=
  alwaysOk_bind (alwaysOk_checkSearchLimited env)
    (fun _ => alwaysOk_ite (alwaysOk_pure [])
      (alwaysOk_tryCatchM (fun _ => alwaysOk_pure [])))

theorem alwaysOk_selectRepoPool (env : Env) : AlwaysOk (selectRepoPool env) :=
  alwaysOk_bind (alwaysOk_getBrandNewRepos env)
    (fun _ => alwaysOk_ite (alwaysOk_pure _)
      (alwaysOk_bind (alwaysOk_getTrendingRepos env)
        (fun _ => alwaysOk_ite (alwaysOk_pure _) (alwaysOk_pure _))))

theorem alwaysOk_attemptLoop (env : Env) (repos : List String) (fm : Bool) :
    ∀ k, AlwaysOk (attemptLoop env repos fm k) := by
  intro k
  induction k with
  | zero => exact alwaysOk_pure none
  | succ k ih =>
    refine alwaysOk_bind (alwaysOk_tryCatchM (fun _ => alwaysOk_pure none)) ?_
    intro r
    cases r with
    | some s => exact alwaysOk_pure _
    | none => exact ih

/-- C9: for every oracle environment (hence every sequence of collaborator
failures), every retry budget and mode, `getRandomCodeSnippet` terminates
with an ordinary `Option CodeSnippet` result — a snippet or `none` — and
never with a thrown fault. -/
theorem C9_neverThrows (env : Env) (maxRetries : Nat) (fastMode : Bool) (n : Nat) :
    ∃ (v : Option CodeSnippet) (rest : Nat × List GhCall),
      getRandomCodeSnippet env maxRetries fastMode n = (Except.ok v, rest) :=
  alwaysOk_bind (alwaysOk_selectRepoPool env)
    (fun repos => alwaysOk_attemptLoop env repos fastMode maxRetries) n

end CodeReviewApp
